import Mathlib

/-!
Verification of the `Dataset` catalog of `deeposlandia` (`sources/dataset.py`),
as a shallow embedding in Lean 4.

Python dictionaries (`class_info`, `image_info`) are modelled as insertion-ordered
association lists `List (Nat × α)`: Python dicts preserve insertion order, and a
fresh key is appended at the end.  Fallible lookups return `Option`.  The numpy
aggregation in `get_class_popularity` is modelled over `ℚ` with half-to-even
rounding (numpy's `np.round` rule).  Pieces of the repository that live in the
`utils` module (not part of the catalog source file) are modelled from the spec
and flagged as such in their doc comments.
-/

/-- A class entry, as stored by `Dataset.add_class`:
`{"name": class_name, "category": category, "color": color}`.
`category` is `Option String` because the Python parameter defaults to `None`. -/
structure ClassEntry where
  name : String
  category : Option String
  color : List Nat
deriving DecidableEq, Repr

/-- An image record, as stored by `Dataset.add_image`. -/
structure ImageRecord where
  raw_filename : String
  image_filename : String
  label_filename : String
  labels : List Nat
deriving DecidableEq, Repr

/-- The `Dataset` object's state: target size plus the two catalog maps. -/
structure Dataset where
  image_size : Nat
  class_info : List (Nat × ClassEntry)
  image_info : List (Nat × ImageRecord)
deriving DecidableEq, Repr

/-- Python dict lookup `m[k]` / membership, over the association-list model:
the first binding of the key wins (our operations never create duplicates). -/
def dictGet {α : Type} (m : List (Nat × α)) (k : Nat) : Option α :=
  match m with
  | [] => none
  | (k', v) :: t => if k = k' then some v else dictGet t k

/-- Python `k in m.keys()`. -/
def dictMem {α : Type} (m : List (Nat × α)) (k : Nat) : Bool :=
  match m with
  | [] => false
  | (k', _) :: t => k == k' || dictMem t k

namespace Dataset

/-- `Dataset.get_class`: returns `None` (here `none`) and logs when the id is
absent, otherwise the stored entry. -/
def get_class (ds : Dataset) (class_id : Nat) : Option ClassEntry :=
  if ¬ dictMem ds.class_info class_id then none
  else dictGet ds.class_info class_id

/-- `Dataset.get_image`: returns `None` (here `none`) and logs when the id is
absent, otherwise the stored record. -/
def get_image (ds : Dataset) (image_id : Nat) : Option ImageRecord :=
  if ¬ dictMem ds.image_info image_id then none
  else dictGet ds.image_info image_id

/-- `Dataset.get_nb_class`. -/
def get_nb_class (ds : Dataset) : Nat := ds.class_info.length

/-- `Dataset.get_nb_images`. -/
def get_nb_images (ds : Dataset) : Nat := ds.image_info.length

/-- `Dataset.add_class`: first-write-wins; a duplicate id leaves the state
untouched (the Python method prints and returns `None`). -/
def add_class (ds : Dataset) (class_id : Nat) (class_name : String)
    (color : List Nat) (category : Option String) : Dataset :=
  if dictMem ds.class_info class_id then ds
  else { ds with class_info :=
          ds.class_info ++ [(class_id, ⟨class_name, category, color⟩)] }

/-- `Dataset.add_image`: first-write-wins; a duplicate id leaves the state
untouched. -/
def add_image (ds : Dataset) (image_id : Nat) (raw_filename : String)
    (image_filename : String) (label_filename : String)
    (labels : List Nat) : Dataset :=
  if dictMem ds.image_info image_id then ds
  else { ds with image_info :=
          ds.image_info ++
            [(image_id, ⟨raw_filename, image_filename, label_filename, labels⟩)] }

end Dataset

section DictLemmas

theorem dictGet_append {α : Type} (l₁ l₂ : List (Nat × α)) (k : Nat) :
    dictGet (l₁ ++ l₂) k =
      match dictGet l₁ k with
      | some v => some v
      | none => dictGet l₂ k := by
  induction l₁ with
  | nil => simp [dictGet]
  | cons p t ih =>
      obtain ⟨k', v⟩ := p
      by_cases h : k = k' <;> simp [dictGet, h, ih]

theorem dictMem_iff_isSome {α : Type} (m : List (Nat × α)) (k : Nat) :
    dictMem m k = (dictGet m k).isSome := by
  induction m with
  | nil => simp [dictMem, dictGet]
  | cons p t ih =>
      obtain ⟨k', v⟩ := p
      by_cases h : k = k' <;> simp [dictMem, dictGet, h, ih]

theorem dictGet_append_single {α : Type} (l : List (Nat × α)) (k : Nat) (v : α)
    (h : dictGet l k = none) : dictGet (l ++ [(k, v)]) k = some v := by
  rw [dictGet_append, h]
  simp [dictGet]

theorem dictGet_append_single_ne {α : Type} (l : List (Nat × α)) (k k' : Nat)
    (v : α) (h : k ≠ k') : dictGet (l ++ [(k', v)]) k = dictGet l k := by
  rw [dictGet_append]
  cases hl : dictGet l k <;> simp [dictGet, h]

end DictLemmas

/-- C9: For every catalog and every id absent from the corresponding map,
`get_class` (respectively `get_image`) returns an explicit not-found value
(`none`) rather than raising; for every id present it returns the stored entry. -/
theorem get_class_get_image_total (ds : Dataset) (id : Nat) :
    (dictGet ds.class_info id = none → ds.get_class id = none) ∧
    (∀ e, dictGet ds.class_info id = some e → ds.get_class id = some e) ∧
    (dictGet ds.image_info id = none → ds.get_image id = none) ∧
    (∀ r, dictGet ds.image_info id = some r → ds.get_image id = some r) := by
  refine ⟨?_, ?_, ?_, ?_⟩
  · intro h
    simp [Dataset.get_class, dictMem_iff_isSome, h]
  · intro e h
    simp [Dataset.get_class, dictMem_iff_isSome, h]
  · intro h
    simp [Dataset.get_image, dictMem_iff_isSome, h]
  · intro r h
    simp [Dataset.get_image, dictMem_iff_isSome, h]

/-- C10: `add_class` never touches the image map nor the target size, and
`add_image` never touches the class map nor the target size, whether the call
stores a new entry or rejects a duplicate id. -/
theorem add_class_add_image_frame (ds : Dataset) (cid : Nat) (cn : String)
    (col : List Nat) (cat : Option String) (iid : Nat)
    (rf imf lf : String) (labs : List Nat) :
    (ds.add_class cid cn col cat).image_info = ds.image_info ∧
    (ds.add_class cid cn col cat).image_size = ds.image_size ∧
    (ds.add_image iid rf imf lf labs).class_info = ds.class_info ∧
    (ds.add_image iid rf imf lf labs).image_size = ds.image_size := by
  refine ⟨?_, ?_, ?_, ?_⟩ <;>
    simp only [Dataset.add_class, Dataset.add_image] <;>
    split <;> rfl

theorem add_class_mem_noop (ds : Dataset) (k : Nat) (n : String) (c : List Nat)
    (cat : Option String) (h : dictMem ds.class_info k = true) :
    ds.add_class k n c cat = ds := by
  simp only [Dataset.add_class, h, if_true]

theorem add_image_mem_noop (ds : Dataset) (k : Nat) (rf imf lf : String)
    (labs : List Nat) (h : dictMem ds.image_info k = true) :
    ds.add_image k rf imf lf labs = ds := by
  simp only [Dataset.add_image, h, if_true]

/-- C2: calling `add_class` (resp. `add_image`) a second time with an id already
present is a no-op: the state is unchanged and the catalog's entry for that id
still holds the values stored by the first call. -/
theorem add_duplicate_first_write_wins (ds : Dataset) (cid : Nat)
    (n₁ n₂ : String) (c₁ c₂ : List Nat) (cat₁ cat₂ : Option String)
    (iid : Nat) (rf₁ rf₂ imf₁ imf₂ lf₁ lf₂ : String) (labs₁ labs₂ : List Nat)
    (hc : dictGet ds.class_info cid = none)
    (hi : dictGet ds.image_info iid = none) :
    ((ds.add_class cid n₁ c₁ cat₁).add_class cid n₂ c₂ cat₂
        = ds.add_class cid n₁ c₁ cat₁ ∧
      ((ds.add_class cid n₁ c₁ cat₁).add_class cid n₂ c₂ cat₂).get_class cid
        = some ⟨n₁, cat₁, c₁⟩) ∧
    ((ds.add_image iid rf₁ imf₁ lf₁ labs₁).add_image iid rf₂ imf₂ lf₂ labs₂
        = ds.add_image iid rf₁ imf₁ lf₁ labs₁ ∧
      ((ds.add_image iid rf₁ imf₁ lf₁ labs₁).add_image iid rf₂ imf₂ lf₂ labs₂).get_image iid
        = some ⟨rf₁, imf₁, lf₁, labs₁⟩) := by
  have hcm : dictMem ds.class_info cid = false := by
    rw [dictMem_iff_isSome, hc]; rfl
  have him : dictMem ds.image_info iid = false := by
    rw [dictMem_iff_isSome, hi]; rfl
  have hc1 : (ds.add_class cid n₁ c₁ cat₁).class_info
      = ds.class_info ++ [(cid, ⟨n₁, cat₁, c₁⟩)] := by
    simp [Dataset.add_class, hcm]
  have hi1 : (ds.add_image iid rf₁ imf₁ lf₁ labs₁).image_info
      = ds.image_info ++ [(iid, ⟨rf₁, imf₁, lf₁, labs₁⟩)] := by
    simp [Dataset.add_image, him]
  have hcget : dictGet (ds.add_class cid n₁ c₁ cat₁).class_info cid
      = some ⟨n₁, cat₁, c₁⟩ := by
    rw [hc1]; exact dictGet_append_single _ _ _ hc
  have higet : dictGet (ds.add_image iid rf₁ imf₁ lf₁ labs₁).image_info iid
      = some ⟨rf₁, imf₁, lf₁, labs₁⟩ := by
    rw [hi1]; exact dictGet_append_single _ _ _ hi
  have hcm1 : dictMem (ds.add_class cid n₁ c₁ cat₁).class_info cid = true := by
    rw [dictMem_iff_isSome, hcget]; rfl
  have him1 : dictMem (ds.add_image iid rf₁ imf₁ lf₁ labs₁).image_info iid = true := by
    rw [dictMem_iff_isSome, higet]; rfl
  have h2c : (ds.add_class cid n₁ c₁ cat₁).add_class cid n₂ c₂ cat₂
      = ds.add_class cid n₁ c₁ cat₁ := add_class_mem_noop _ _ _ _ _ hcm1
  have h2i : (ds.add_image iid rf₁ imf₁ lf₁ labs₁).add_image iid rf₂ imf₂ lf₂ labs₂
      = ds.add_image iid rf₁ imf₁ lf₁ labs₁ := add_image_mem_noop _ _ _ _ _ _ him1
  refine ⟨⟨h2c, ?_⟩, h2i, ?_⟩
  · rw [h2c]
    simp [Dataset.get_class, hcm1, hcget]
  · rw [h2i]
    simp [Dataset.get_image, him1, higet]

/-- Witness for C2 at a concrete catalog. -/
theorem add_duplicate_first_write_wins_witness :
    dictGet (Dataset.mk 64 [] []).class_info 7 = none ∧
    dictGet (Dataset.mk 64 [] []).image_info 3 = none ∧
    (((Dataset.mk 64 [] []).add_class 7 "road" [128, 64, 128] none).add_class
        7 "sky" [70, 130, 180] (some "nature")).get_class 7
      = some ⟨"road", none, [128, 64, 128]⟩ :=
  ⟨rfl, rfl,
    (((add_duplicate_first_write_wins (Dataset.mk 64 [] []) 7 "road" "sky"
        [128, 64, 128] [70, 130, 180] none (some "nature") 3 "a" "b" "c" "d" "e" "f"
        [1] [0] rfl rfl).1).2)⟩

/-- One entry of the glossary document's `labels` list: `name` (a `--`-delimited
compound), `color`, and the `evaluate` flag. -/
structure GlossaryLabel where
  name : String
  color : List Nat
  evaluate : Bool
deriving DecidableEq, Repr

/-- A glossary document; `labels = none` models a document lacking the
`labels` key. -/
structure Glossary where
  labels : Option (List GlossaryLabel)
deriving DecidableEq, Repr

/-- Python `s.split('--')` on the character list of `s`: left-to-right,
non-overlapping matches of the two-character separator.  Written with
structural recursion so concrete instances evaluate inside the kernel. -/
def splitDashDash : List Char → List (List Char)
  | [] => [[]]
  | [c] => [[c]]
  | c₁ :: c₂ :: rest =>
      if c₁ = '-' ∧ c₂ = '-' then [] :: splitDashDash rest
      else
        match splitDashDash (c₂ :: rest) with
        | [] => [[c₁]]
        | h :: t => (c₁ :: h) :: t

/-- Python `s.split('--')`, specialised to the separator `build_glossary` uses. -/
def pySplitDashDash (s : String) : List String :=
  (splitDashDash s.data).map fun l => ⟨l⟩

/-- The loop body of `Dataset.build_glossary`, applied to one `(lab_id, label)`
pair of `enumerate(glossary["labels"])`. -/
def glossaryStep (d : Dataset) (p : Nat × GlossaryLabel) : Dataset :=
  if p.2.evaluate then
    let name_items := pySplitDashDash p.2.name
    let category := String.intercalate "-" name_items.dropLast
    d.add_class p.1 (name_items.getLastD "") p.2.color (some category)
  else d

/-- `Dataset.build_glossary`: a missing `labels` key prints and returns (no
mutation); otherwise every `evaluate`d label is added with its enumeration
index as class id. -/
def Dataset.build_glossary (ds : Dataset) (glossary : Glossary) : Dataset :=
  match glossary.labels with
  | none => ds
  | some labs => labs.enum.foldl glossaryStep ds

/-- The class entry `build_glossary` stores for an evaluated label. -/
def includedEntry (lab : GlossaryLabel) : ClassEntry :=
  ⟨(pySplitDashDash lab.name).getLastD "",
    some (String.intercalate "-" (pySplitDashDash lab.name).dropLast),
    lab.color⟩

theorem glossaryStep_foldl_closed (l : List (Nat × GlossaryLabel)) :
    ∀ d : Dataset,
      (∀ p ∈ l, dictGet d.class_info p.1 = none) →
      (l.map Prod.fst).Nodup →
      (l.foldl glossaryStep d).class_info
        = d.class_info
            ++ (l.filter (fun p => p.2.evaluate)).map (fun p => (p.1, includedEntry p.2)) := by
  induction l with
  | nil => intro d _ _; simp
  | cons p t ih =>
      intro d hfresh hnodup
      obtain ⟨hp, ht⟩ : dictGet d.class_info p.1 = none ∧
          ∀ q ∈ t, dictGet d.class_info q.1 = none := by
        exact ⟨hfresh p (List.mem_cons_self p t), fun q hq => hfresh q (List.mem_cons_of_mem p hq)⟩
      have hpm : dictMem d.class_info p.1 = false := by
        rw [dictMem_iff_isSome, hp]; rfl
      have hnodup' : p.1 ∉ t.map Prod.fst ∧ (t.map Prod.fst).Nodup := by
        rw [List.map_cons, List.nodup_cons] at hnodup
        exact hnodup
      have hnd : (t.map Prod.fst).Nodup := hnodup'.2
      have hkey : ∀ q ∈ t, q.1 ≠ p.1 := by
        intro q hq h
        exact hnodup'.1 (h ▸ List.mem_map_of_mem Prod.fst hq)
      rw [List.foldl_cons]
      by_cases he : p.2.evaluate
      · have hstep : glossaryStep d p
            = { d with class_info := d.class_info ++ [(p.1, includedEntry p.2)] } := by
          simp only [glossaryStep, he, if_true, Dataset.add_class, hpm]
          rfl
        rw [hstep, ih _ ?_ hnd]
        · simp [he, List.filter_cons]
        · intro q hq
          simp only
          rw [dictGet_append_single_ne _ _ _ _ (hkey q hq)]
          exact ht q hq
      · have hstep : glossaryStep d p = d := by
          simp only [glossaryStep, he]
          rfl
        rw [hstep, ih _ ht hnd]
        simp [he, List.filter_cons]

theorem dictGet_eq_none_iff {α : Type} (l : List (Nat × α)) (k : Nat) :
    dictGet l k = none ↔ ∀ v, (k, v) ∉ l := by
  induction l with
  | nil => simp [dictGet]
  | cons p t ih =>
      obtain ⟨k', v'⟩ := p
      by_cases h : k = k'
      · subst h
        simp only [dictGet, if_pos rfl]
        constructor
        · intro hc
          cases hc
        · intro hall
          exact absurd (List.mem_cons_self (k, v') t) (hall v')
      · simp only [dictGet, if_neg h, ih, List.mem_cons]
        constructor
        · intro hnone v hv
          rcases hv with hv | hv
          · exact h (congrArg Prod.fst hv)
          · exact hnone v hv
        · intro hall v hv
          exact hall v (Or.inr hv)

theorem dictGet_eq_some_of_mem {α : Type} (l : List (Nat × α))
    (hnd : (l.map Prod.fst).Nodup) (k : Nat) (v : α) (h : (k, v) ∈ l) :
    dictGet l k = some v := by
  induction l with
  | nil => cases h
  | cons p t ih =>
      obtain ⟨k', v'⟩ := p
      rw [List.map_cons, List.nodup_cons] at hnd
      rcases List.mem_cons.mp h with hv | hv
      · injection hv with h1 h2
        subst h1
        subst h2
        simp [dictGet]
      · have hk : k ≠ k' := by
          intro he
          subst he
          have hm : k ∈ List.map Prod.fst t := List.mem_map_of_mem Prod.fst hv
          exact hnd.1 hm
        simp only [dictGet, if_neg hk]
        exact ih hnd.2 hv

/-- Lookup in the class table that `build_glossary` builds from an enumerated,
`evaluate`-filtered label list: the id found is exactly the enumeration index
of an evaluated label. -/
theorem dictGet_glossary_table (labs : List GlossaryLabel) (i : Nat) :
    dictGet ((labs.enum.filter (fun p => p.2.evaluate)).map
        (fun p => (p.1, includedEntry p.2))) i
      = (labs[i]?.bind fun lab =>
          if lab.evaluate then some (includedEntry lab) else none) := by
  have hnd : (((labs.enum.filter (fun p => p.2.evaluate)).map
      (fun p => (p.1, includedEntry p.2))).map Prod.fst).Nodup := by
    have h1 : ((labs.enum.filter (fun p => p.2.evaluate)).map Prod.fst).Sublist
        (labs.enum.map Prod.fst) :=
      (List.filter_sublist _).map Prod.fst
    have h2 : (((labs.enum.filter (fun p => p.2.evaluate)).map
        (fun p => (p.1, includedEntry p.2))).map Prod.fst)
        = (labs.enum.filter (fun p => p.2.evaluate)).map Prod.fst := by
      simp [List.map_map, Function.comp]
    rw [h2]
    exact (List.nodup_enum_map_fst labs).sublist h1
  cases hi : labs[i]? with
  | none =>
      rw [Option.none_bind', dictGet_eq_none_iff]
      intro v hv
      obtain ⟨p, hpf, hpe⟩ := List.mem_map.mp hv
      have hp1 : p.1 = i := congrArg Prod.fst hpe
      have hpenum : p ∈ labs.enum := List.mem_of_mem_filter hpf
      have : labs[i]? = some p.2 := by
        rw [← hp1]
        exact List.mk_mem_enum_iff_getElem?.mp (by rwa [Prod.mk.eta])
      rw [hi] at this
      cases this
  | some lab =>
      by_cases he : lab.evaluate
      · rw [Option.some_bind', if_pos he]
        apply dictGet_eq_some_of_mem _ hnd
        have hmem : (i, lab) ∈ labs.enum := List.mk_mem_enum_iff_getElem?.mpr hi
        have hfil : (i, lab) ∈ labs.enum.filter (fun p => p.2.evaluate) :=
          List.mem_filter.mpr ⟨hmem, by simpa using he⟩
        exact List.mem_map_of_mem _ hfil
      · rw [Option.some_bind', if_neg he, dictGet_eq_none_iff]
        intro v hv
        obtain ⟨p, hpf, hpe⟩ := List.mem_map.mp hv
        have hp1 : p.1 = i := congrArg Prod.fst hpe
        have hpenum : p ∈ labs.enum := List.mem_of_mem_filter hpf
        have hpev : p.2.evaluate = true := by
          have := (List.mem_filter.mp hpf).2
          simpa using this
        have hsome : labs[i]? = some p.2 := by
          rw [← hp1]
          exact List.mk_mem_enum_iff_getElem?.mp (by rwa [Prod.mk.eta])
        rw [hi] at hsome
        injection hsome with hlab
        rw [hlab] at he
        exact he (by exact_mod_cast hpev)

/-- The class table `build_glossary` produces from a well-formed glossary,
starting from an empty class table. -/
theorem build_glossary_class_info (ds : Dataset) (g : Glossary)
    (labs : List GlossaryLabel) (h : g.labels = some labs)
    (h0 : ds.class_info = []) :
    (ds.build_glossary g).class_info
      = (labs.enum.filter (fun p => p.2.evaluate)).map
          (fun p => (p.1, includedEntry p.2)) := by
  simp only [Dataset.build_glossary, h]
  rw [glossaryStep_foldl_closed labs.enum ds ?_ ?_, h0, List.nil_append]
  · intro p _
    rw [h0]
    rfl
  · have := List.nodup_enum_map_fst labs
    exact this

/-- C6: glossary loading includes a label entry as a class iff its `evaluate`
flag is true, and the class id of an included label is its enumeration index
in the raw label list, so excluded labels leave gaps in the id sequence. -/
theorem build_glossary_includes_iff_evaluate (ds : Dataset) (g : Glossary)
    (labs : List GlossaryLabel) (h : g.labels = some labs)
    (h0 : ds.class_info = []) (i : Nat) :
    dictGet (ds.build_glossary g).class_info i
      = (labs[i]?.bind fun lab =>
          if lab.evaluate then some (includedEntry lab) else none) := by
  rw [build_glossary_class_info ds g labs h h0, dictGet_glossary_table]

/-- Witness for C6: three labels whose second has `evaluate = false` yield
exactly two class entries, with ids 0 and 2 (id 1 skipped). -/
theorem build_glossary_includes_iff_evaluate_witness :
    ((Dataset.mk 64 [] []).build_glossary
        ⟨some [⟨"animal--bird", [165, 42, 42], true⟩,
          ⟨"void--unlabeled", [0, 0, 0], false⟩,
          ⟨"construction--flat--road", [128, 64, 128], true⟩]⟩).get_nb_class = 2 ∧
    dictGet ((Dataset.mk 64 [] []).build_glossary
        ⟨some [⟨"animal--bird", [165, 42, 42], true⟩,
          ⟨"void--unlabeled", [0, 0, 0], false⟩,
          ⟨"construction--flat--road", [128, 64, 128], true⟩]⟩).class_info 0
      = some ⟨"bird", some "animal", [165, 42, 42]⟩ ∧
    dictGet ((Dataset.mk 64 [] []).build_glossary
        ⟨some [⟨"animal--bird", [165, 42, 42], true⟩,
          ⟨"void--unlabeled", [0, 0, 0], false⟩,
          ⟨"construction--flat--road", [128, 64, 128], true⟩]⟩).class_info 1
      = none ∧
    dictGet ((Dataset.mk 64 [] []).build_glossary
        ⟨some [⟨"animal--bird", [165, 42, 42], true⟩,
          ⟨"void--unlabeled", [0, 0, 0], false⟩,
          ⟨"construction--flat--road", [128, 64, 128], true⟩]⟩).class_info 2
      = some ⟨"road", some "construction-flat", [128, 64, 128]⟩ ∧
    dictGet ((Dataset.mk 64 [] []).build_glossary
        ⟨some [⟨"animal--bird", [165, 42, 42], true⟩,
          ⟨"void--unlabeled", [0, 0, 0], false⟩,
          ⟨"construction--flat--road", [128, 64, 128], true⟩]⟩).class_info 3
      = none := by
  refine ⟨rfl, ?_, ?_, ?_, ?_⟩
  · exact (build_glossary_includes_iff_evaluate _ _ _ rfl rfl 0).trans rfl
  · exact (build_glossary_includes_iff_evaluate _ _ _ rfl rfl 1).trans rfl
  · exact (build_glossary_includes_iff_evaluate _ _ _ rfl rfl 2).trans rfl
  · exact (build_glossary_includes_iff_evaluate _ _ _ rfl rfl 3).trans rfl

/-- C7 counterexample: for a label whose name has a single segment, the stored
category is the empty string (`some ""`), a present value, not an absent one. -/
theorem single_segment_category_not_absent :
    dictGet ((Dataset.mk 64 [] []).build_glossary
        ⟨some [⟨"road", [128, 64, 128], true⟩]⟩).class_info 0
      = some ⟨"road", some "", [128, 64, 128]⟩ ∧
    (ClassEntry.mk "road" (some "") [128, 64, 128]).category ≠ none :=
  ⟨rfl, Option.some_ne_none ""⟩

/-- C7 (amended): for every included label, glossary loading splits the name on
`--`, stores the final segment as the class name and the preceding segments
joined with `-` as the category; when the name has a single segment the stored
category is the empty string (present, not absent). -/
theorem build_glossary_name_split (ds : Dataset) (g : Glossary)
    (labs : List GlossaryLabel) (h : g.labels = some labs)
    (h0 : ds.class_info = []) (i : Nat) (lab : GlossaryLabel)
    (hi : labs[i]? = some lab) (he : lab.evaluate = true) :
    (ds.build_glossary g).get_class i
      = some ⟨(pySplitDashDash lab.name).getLastD "",
          some (String.intercalate "-" (pySplitDashDash lab.name).dropLast),
          lab.color⟩ := by
  have hd : dictGet (ds.build_glossary g).class_info i
      = some (includedEntry lab) := by
    rw [build_glossary_class_info ds g labs h h0, dictGet_glossary_table, hi,
      Option.some_bind', if_pos he]
  have hm : dictMem (ds.build_glossary g).class_info i = true := by
    rw [dictMem_iff_isSome, hd]
    rfl
  simp only [Dataset.get_class, hm, not_true, Bool.true_eq_false, if_false]
  rw [hd]
  rfl

/-- Witness for C7 (amended), at a single-segment label name. -/
theorem build_glossary_name_split_witness :
    ((Dataset.mk 64 [] []).build_glossary
        ⟨some [⟨"sky", [70, 130, 180], true⟩]⟩).get_class 0
      = some ⟨"sky", some "", [70, 130, 180]⟩ :=
  (build_glossary_name_split ⟨64, [], []⟩ ⟨some [⟨"sky", [70, 130, 180], true⟩]⟩
    [⟨"sky", [70, 130, 180], true⟩] rfl rfl 0 ⟨"sky", [70, 130, 180], true⟩
    rfl rfl).trans rfl

/-- C8: on a glossary document lacking the `labels` key, `build_glossary`
reports the schema error and adds no class entries: the whole catalog state is
exactly what it was before the call. -/
theorem build_glossary_missing_labels (ds : Dataset) (g : Glossary)
    (h : g.labels = none) : ds.build_glossary g = ds := by
  simp only [Dataset.build_glossary, h]

/-- Witness for C8: a catalog with one pre-existing class is left untouched. -/
theorem build_glossary_missing_labels_witness :
    (Dataset.mk 32 [(0, ⟨"water", none, [0, 0, 255]⟩)] []).build_glossary ⟨none⟩
      = Dataset.mk 32 [(0, ⟨"water", none, [0, 0, 255]⟩)] [] :=
  build_glossary_missing_labels _ _ rfl

/-- numpy's rounding of a rational to the nearest integer, ties to even
(the rule `np.round` uses). -/
def roundHalfEven (q : ℚ) : ℤ :=
  if q - ⌊q⌋ < 1 / 2 then ⌊q⌋
  else if (1 : ℚ) / 2 < q - ⌊q⌋ then ⌊q⌋ + 1
  else if ⌊q⌋ % 2 = 0 then ⌊q⌋ else ⌊q⌋ + 1

/-- `np.round(q, 3)`: round to 3 decimal digits. -/
def np_round3 (q : ℚ) : ℚ := (roundHalfEven (1000 * q) : ℚ) / 1000

/-- Python `sum(np.array(labels))`: the fold starts from the scalar `0`, and
`0 + arr = arr`, so an empty list gives the scalar `0` (unused: the caller
guards on zero images) and a non-empty list gives the elementwise sum. -/
def npSumLabels : List (List Nat) → List Nat
  | [] => []
  | h :: t => t.foldl (List.zipWith (· + ·)) h

/-- `Dataset.get_class_popularity`: `None` on an empty image map, otherwise the
elementwise mean of the label vectors, rounded to 3 decimals. -/
def Dataset.get_class_popularity (ds : Dataset) : Option (List ℚ) :=
  let labels := ds.image_info.map (fun p => p.2.labels)
  if ds.get_nb_images = 0 then none
  else
    some ((npSumLabels labels).map
      (fun (s : Nat) => np_round3 ((s : ℚ) / (ds.get_nb_images : ℚ))))

/-- C5: on a catalog whose image map is empty, `class_popularity` returns the
explicit absent result (`None`), with no division by zero: the guard fires
before any divide. -/
theorem get_class_popularity_empty (ds : Dataset) (h : ds.image_info = []) :
    ds.get_class_popularity = none := by
  simp [Dataset.get_class_popularity, Dataset.get_nb_images, h]

/-- Witness for C5: a catalog with classes but no images. -/
theorem get_class_popularity_empty_witness :
    (Dataset.mk 512 [(0, ⟨"road", some "", [128, 64, 128]⟩)] []).get_class_popularity
      = none :=
  get_class_popularity_empty _ rfl

/-- Witness for C9 at a concrete catalog: absent ids give `none`, present ids
give the stored entries. -/
theorem get_class_get_image_total_witness :
    (Dataset.mk 16 [(1, ⟨"car", some "object", [0, 0, 142]⟩)]
        [(2, ⟨"r.jpg", "i.jpg", "l.png", [1, 0]⟩)]).get_class 5 = none ∧
    (Dataset.mk 16 [(1, ⟨"car", some "object", [0, 0, 142]⟩)]
        [(2, ⟨"r.jpg", "i.jpg", "l.png", [1, 0]⟩)]).get_class 1
      = some ⟨"car", some "object", [0, 0, 142]⟩ ∧
    (Dataset.mk 16 [(1, ⟨"car", some "object", [0, 0, 142]⟩)]
        [(2, ⟨"r.jpg", "i.jpg", "l.png", [1, 0]⟩)]).get_image 5 = none ∧
    (Dataset.mk 16 [(1, ⟨"car", some "object", [0, 0, 142]⟩)]
        [(2, ⟨"r.jpg", "i.jpg", "l.png", [1, 0]⟩)]).get_image 2
      = some ⟨"r.jpg", "i.jpg", "l.png", [1, 0]⟩ := by
  refine ⟨?_, ?_, ?_, ?_⟩
  · exact (get_class_get_image_total _ 5).1 rfl
  · exact (get_class_get_image_total _ 1).2.1 _ rfl
  · exact (get_class_get_image_total _ 5).2.2.1 rfl
  · exact (get_class_get_image_total _ 2).2.2.2 _ rfl

theorem foldl_zipWith_add_getD (L : Nat) (ls : List (List Nat)) :
    ∀ acc : List Nat, acc.length = L → (∀ l ∈ ls, l.length = L) →
      ls.foldl (List.zipWith (· + ·)) acc
        = (List.range L).map
            (fun i => acc.getD i 0 + ((ls.map (fun l => l.getD i 0)).sum)) := by
  induction ls with
  | nil =>
      intro acc hacc _
      simp only [List.foldl_nil, List.map_nil, List.sum_nil, Nat.add_zero]
      apply List.ext_getElem (by simp [hacc])
      intro i h1 h2
      rw [List.getElem_map, List.getElem_range]
      rw [List.getD_eq_getElem acc 0 h1]
  | cons l t ih =>
      intro acc hacc hls
      have hlen : l.length = L := hls l (List.mem_cons_self _ _)
      have hacc' : (List.zipWith (· + ·) acc l).length = L := by
        rw [List.length_zipWith, hacc, hlen, Nat.min_self]
      rw [List.foldl_cons,
        ih (List.zipWith (· + ·) acc l) hacc'
          (fun x hx => hls x (List.mem_cons_of_mem _ hx))]
      apply List.map_congr_left
      intro i hi
      have hiL : i < L := List.mem_range.mp hi
      have hz : (List.zipWith (· + ·) acc l).getD i 0
          = acc.getD i 0 + l.getD i 0 := by
        rw [List.getD_eq_getElem _ 0 (by rw [hacc']; exact hiL),
          List.getElem_zipWith,
          ← List.getD_eq_getElem acc 0 (by rw [hacc]; exact hiL),
          ← List.getD_eq_getElem l 0 (by rw [hlen]; exact hiL)]
      rw [hz, List.map_cons, List.sum_cons]
      omega

theorem sum_map_getD_eq_count (i : Nat) (l : List (Nat × ImageRecord)) :
    (∀ p ∈ l, ∀ x ∈ p.2.labels, x = 0 ∨ x = 1) →
    (l.map (fun p => p.2.labels.getD i 0)).sum
      = (l.filter (fun p => p.2.labels.getD i 0 == 1)).length := by
  induction l with
  | nil => intro _; rfl
  | cons p t ih =>
      intro h
      have hrec := ih (fun q hq => h q (List.mem_cons_of_mem _ hq))
      have hp : p.2.labels.getD i 0 = 0 ∨ p.2.labels.getD i 0 = 1 := by
        by_cases hlt : i < p.2.labels.length
        · rw [List.getD_eq_getElem _ 0 hlt]
          exact h p (List.mem_cons_self _ _) _ (List.getElem_mem hlt)
        · left
          exact List.getD_eq_default _ 0 (Nat.le_of_not_lt hlt)
      rw [List.map_cons, List.sum_cons, List.filter_cons]
      rcases hp with h0 | h1
      · rw [h0]
        simp only [Nat.zero_add, hrec]
        norm_num
      · rw [h1]
        simp only [hrec]
        norm_num
        omega

/-- C4: on a catalog with at least one image whose label vectors all have
length `L` with entries in `{0,1}`, `class_popularity` returns, for each class
index, the fraction of image records whose label vector has a `1` there,
rounded to 3 decimal digits. -/
theorem get_class_popularity_fraction (ds : Dataset) (L : Nat)
    (hne : ds.image_info ≠ [])
    (hlen : ∀ p ∈ ds.image_info, p.2.labels.length = L)
    (h01 : ∀ p ∈ ds.image_info, ∀ x ∈ p.2.labels, x = 0 ∨ x = 1) :
    ds.get_class_popularity
      = some ((List.range L).map (fun i =>
          np_round3
            (((ds.image_info.filter
                  (fun p => p.2.labels.getD i 0 == 1)).length : ℚ)
              / (ds.image_info.length : ℚ)))) := by
  obtain ⟨q, rest, hqr⟩ := List.exists_cons_of_ne_nil hne
  have hnz : ¬ ds.get_nb_images = 0 := by
    rw [Dataset.get_nb_images, hqr]
    simp
  unfold Dataset.get_class_popularity
  simp only [if_neg hnz]
  congr 1
  rw [Dataset.get_nb_images]
  rw [hqr] at hlen h01 ⊢
  rw [List.map_cons]
  rw [show npSumLabels (q.2.labels :: rest.map (fun p => p.2.labels))
      = (rest.map (fun p => p.2.labels)).foldl (List.zipWith (· + ·))
          q.2.labels from rfl]
  rw [foldl_zipWith_add_getD L _ _ (hlen q (List.mem_cons_self _ _)) ?side]
  case side =>
    intro x hx
    obtain ⟨p, hp, hpx⟩ := List.mem_map.mp hx
    rw [← hpx]
    exact hlen p (List.mem_cons_of_mem _ hp)
  have hinner : ∀ j : Nat,
      (rest.map (fun p => p.2.labels)).map (fun l => l.getD j 0)
        = rest.map (fun p => p.2.labels.getD j 0) := by
    intro j
    rw [List.map_map]
    rfl
  have hsum : ∀ j : Nat,
      q.2.labels.getD j 0 + (rest.map (fun p => p.2.labels.getD j 0)).sum
        = ((q :: rest).filter (fun p => p.2.labels.getD j 0 == 1)).length := by
    intro j
    rw [show q.2.labels.getD j 0 + (rest.map (fun p => p.2.labels.getD j 0)).sum
        = ((q :: rest).map (fun p => p.2.labels.getD j 0)).sum from by
      rw [List.map_cons, List.sum_cons]]
    exact sum_map_getD_eq_count j (q :: rest) h01
  rw [List.map_map]
  apply List.map_congr_left
  intro i hi
  simp only [Function.comp]
  rw [hinner i, hsum i]

theorem roundHalfEven_intCast (n : ℤ) : roundHalfEven (n : ℚ) = n := by
  unfold roundHalfEven
  rw [Int.floor_intCast]
  norm_num

theorem np_round3_half : np_round3 (1 / 2 : ℚ) = 1 / 2 := by
  unfold np_round3
  rw [show (1000 : ℚ) * (1 / 2) = ((500 : ℤ) : ℚ) by norm_num,
    roundHalfEven_intCast]
  norm_num

theorem np_round3_zero : np_round3 (0 : ℚ) = 0 := by
  unfold np_round3
  rw [show (1000 : ℚ) * 0 = ((0 : ℤ) : ℚ) by norm_num, roundHalfEven_intCast]
  norm_num

theorem np_round3_one : np_round3 (1 : ℚ) = 1 := by
  unfold np_round3
  rw [show (1000 : ℚ) * 1 = ((1000 : ℤ) : ℚ) by norm_num, roundHalfEven_intCast]
  norm_num

/-- Witness for C4: two images with label vectors `[1,0,1]` and `[0,0,1]`
yield popularity `[0.5, 0.0, 1.0]`. -/
theorem get_class_popularity_fraction_witness :
    (Dataset.mk 64 []
        [(0, ⟨"0.jpg", "0p.jpg", "0.png", [1, 0, 1]⟩),
          (1, ⟨"1.jpg", "1p.jpg", "1.png", [0, 0, 1]⟩)]).get_class_popularity
      = some [1 / 2, 0, 1] := by
  have h := get_class_popularity_fraction
    (Dataset.mk 64 []
      [(0, ⟨"0.jpg", "0p.jpg", "0.png", [1, 0, 1]⟩),
        (1, ⟨"1.jpg", "1p.jpg", "1.png", [0, 0, 1]⟩)]) 3
    (by decide) (by decide) (by decide)
  rw [h]
  rw [show List.range 3 = [0, 1, 2] from rfl]
  simp only [List.map_cons, List.map_nil]
  rw [show (List.filter (fun p => p.2.labels.getD 0 0 == 1)
      (Dataset.mk 64 []
        [(0, ⟨"0.jpg", "0p.jpg", "0.png", [1, 0, 1]⟩),
          (1, ⟨"1.jpg", "1p.jpg", "1.png", [0, 0, 1]⟩)]).image_info).length
      = 1 from rfl]
  rw [show (List.filter (fun p => p.2.labels.getD 1 0 == 1)
      (Dataset.mk 64 []
        [(0, ⟨"0.jpg", "0p.jpg", "0.png", [1, 0, 1]⟩),
          (1, ⟨"1.jpg", "1p.jpg", "1.png", [0, 0, 1]⟩)]).image_info).length
      = 0 from rfl]
  rw [show (List.filter (fun p => p.2.labels.getD 2 0 == 1)
      (Dataset.mk 64 []
        [(0, ⟨"0.jpg", "0p.jpg", "0.png", [1, 0, 1]⟩),
          (1, ⟨"1.jpg", "1p.jpg", "1.png", [0, 0, 1]⟩)]).image_info).length
      = 2 from rfl]
  rw [show (Dataset.mk 64 []
      [(0, ⟨"0.jpg", "0p.jpg", "0.png", [1, 0, 1]⟩),
        (1, ⟨"1.jpg", "1p.jpg", "1.png", [0, 0, 1]⟩)]).image_info.length
      = 2 from rfl]
  norm_num [np_round3_half, np_round3_zero, np_round3_one]

/-- The character of a decimal digit, as in Python `str(n)`. -/
def digitChar (d : Nat) : Char := Char.ofNat (48 + d)

/-- Python `str(n)` for a non-negative integer key, as `json.dump` applies it
to dict keys: the base-10 digits, most significant first. -/
def encodeKey (n : Nat) : String :=
  if n = 0 then "0" else ⟨((Nat.digits 10 n).reverse).map digitChar⟩

/-- Python `int(k)` on a decimal key string, as `Dataset.load` applies it to
the document keys. -/
def decodeKey (s : String) : Nat :=
  s.data.foldl (fun acc c => 10 * acc + (c.toNat - 48)) 0

/-- The persisted dataset document: `image_size`, and the two maps with
stringified ids as document keys. -/
structure SavedDataset where
  image_size : Nat
  classes : List (String × ClassEntry)
  images : List (String × ImageRecord)
deriving DecidableEq, Repr

/-- `Dataset.save`: the document `json.dump` writes. -/
def Dataset.save (ds : Dataset) : SavedDataset :=
  ⟨ds.image_size,
    ds.class_info.map (fun p => (encodeKey p.1, p.2)),
    ds.image_info.map (fun p => (encodeKey p.1, p.2))⟩

/-- `Dataset.load`: replaces all three fields from the document, turning the
string keys back into integers with `int(k)`. -/
def Dataset.load (doc : SavedDataset) : Dataset :=
  ⟨doc.image_size,
    doc.classes.map (fun p => (decodeKey p.1, p.2)),
    doc.images.map (fun p => (decodeKey p.1, p.2))⟩

theorem digitChar_toNat (d : Nat) (h : d < 10) : (digitChar d).toNat = 48 + d := by
  interval_cases d <;> rfl

theorem foldl_decode_digits (L : List Nat) :
    ∀ a : Nat, (∀ d ∈ L, d < 10) →
      (L.reverse.map digitChar).foldl (fun acc c => 10 * acc + (c.toNat - 48)) a
        = a * 10 ^ L.length + Nat.ofDigits 10 L := by
  induction L with
  | nil =>
      intro a _
      simp [Nat.ofDigits_nil]
  | cons d T ih =>
      intro a h
      rw [List.reverse_cons, List.map_append, List.foldl_append]
      simp only [List.map_cons, List.map_nil, List.foldl_cons, List.foldl_nil]
      rw [ih a (fun x hx => h x (List.mem_cons_of_mem _ hx)),
        digitChar_toNat d (h d (List.mem_cons_self _ _)),
        Nat.ofDigits_cons, List.length_cons, Nat.add_sub_cancel_left,
        Nat.pow_succ]
      ring

theorem decodeKey_encodeKey (n : Nat) : decodeKey (encodeKey n) = n := by
  unfold encodeKey
  by_cases h : n = 0
  · subst h
    rfl
  · rw [if_neg h]
    show ((Nat.digits 10 n).reverse.map digitChar).foldl
        (fun acc c => 10 * acc + (c.toNat - 48)) 0 = n
    rw [foldl_decode_digits _ 0
      (fun d hd => Nat.digits_lt_base (by norm_num) hd)]
    simp [Nat.ofDigits_digits]

theorem map_encode_decode {α : Type} (l : List (Nat × α)) :
    (l.map (fun p => (encodeKey p.1, p.2))).map (fun p => (decodeKey p.1, p.2))
      = l := by
  rw [List.map_map]
  have h : ∀ p ∈ l,
      ((fun p : String × α => (decodeKey p.1, p.2))
        ∘ (fun p : Nat × α => (encodeKey p.1, p.2))) p = id p := by
    intro p _
    simp [Function.comp, decodeKey_encodeKey]
  rw [List.map_congr_left h, List.map_id]

/-- C1: saving a catalog and loading the saved document yields a catalog equal
in value to the original: same target size, same class map, same image map,
with the integer ids reconstructed from the string document keys. -/
theorem load_save_roundtrip (ds : Dataset) :
    Dataset.load (Dataset.save ds) = ds := by
  obtain ⟨sz, cls, imgs⟩ := ds
  simp only [Dataset.save, Dataset.load]
  rw [map_encode_decode, map_encode_decode]

/-- Nearest-integer rounding of `num / den`. -/
def roundNearest (num den : Nat) : Nat := (2 * num + den) / (2 * den)

/-- Modelled from the spec: `utils.resize_image` (the repository's `utils`
module is not part of this source file).  Per §4.1, the image is scaled so the
shorter side equals the target size, the orthogonal dimension scaling by the
same ratio with nearest-integer rounding.  Images are represented by their
pixel sizes `(width, height)`. -/
def resize_image (size : Nat × Nat) (target : Nat) : Nat × Nat :=
  if size.1 ≤ size.2 then (target, roundNearest (size.2 * target) size.1)
  else (roundNearest (size.1 * target) size.2, target)

/-- A cropped image together with the crop offset that produced it, so that
the alignment of an image/mask pair can be stated. -/
structure CroppedImage where
  size : Nat × Nat
  offset : Nat
deriving DecidableEq, Repr

/-- Modelled from the spec: `utils.mono_crop_image` (`square_crop` in §4.1) —
extract a square window with side the shorter dimension, starting at the given
offset along the longer dimension. -/
def mono_crop_image (size : Nat × Nat) (offset : Nat) : CroppedImage :=
  ⟨(min size.1 size.2, min size.1 size.2), offset⟩

/-- `np.random.randint(low, high)` over an explicit stream of random draws:
consume the head of the stream and produce a value in `[low, high)`. -/
def randint (low high : Nat) : List Nat → Nat × List Nat
  | [] => (low, [])
  | r :: rest => (low + r % (high - low), rest)

/-- One iteration of `Dataset.populate`'s loop for a single image/mask pair
whose raw pixel sizes are `inSize`/`outSize`: resize both to the target size,
draw one crop offset with `np.random.randint(0, 1 + max(img_in.size) -
image_size)`, and crop both with that offset. -/
def populate_step (image_size : Nat) (inSize outSize : Nat × Nat)
    (rng : List Nat) : CroppedImage × CroppedImage × List Nat :=
  let img_in := resize_image inSize image_size
  let img_out := resize_image outSize image_size
  let draw := randint 0 (1 + max img_in.1 img_in.2 - image_size) rng
  let final_img_in := mono_crop_image img_in draw.1
  let final_img_out := mono_crop_image img_out draw.1
  (final_img_in, final_img_out, draw.2)

/-- C3: each image/mask pair draws exactly one crop offset (one element of the
random stream is consumed), the image's crop and the mask's crop receive the
same offset, and the offset lies in `[0, max(resized sizes) - target]`. -/
theorem populate_step_shared_offset (image_size : Nat)
    (inSize outSize : Nat × Nat) (r : Nat) (rest : List Nat) :
    (populate_step image_size inSize outSize (r :: rest)).2.2 = rest ∧
    (populate_step image_size inSize outSize (r :: rest)).1.offset
      = (populate_step image_size inSize outSize (r :: rest)).2.1.offset ∧
    (populate_step image_size inSize outSize (r :: rest)).1.offset
      ≤ max (resize_image inSize image_size).1
          (resize_image inSize image_size).2 - image_size := by
  refine ⟨rfl, rfl, ?_⟩
  have hmax : image_size
      ≤ max (resize_image inSize image_size).1
          (resize_image inSize image_size).2 := by
    unfold resize_image
    by_cases hle : inSize.1 ≤ inSize.2
    · rw [if_pos hle]
      exact le_max_left _ _
    · rw [if_neg hle]
      exact le_max_right _ _
  show 0 + r % (1 + max (resize_image inSize image_size).1
        (resize_image inSize image_size).2 - image_size - 0) ≤ _
  have hpos : 0 < 1 + max (resize_image inSize image_size).1
      (resize_image inSize image_size).2 - image_size - 0 := by
    omega
  have hlt := Nat.mod_lt r hpos
  omega
